import Mathlib

set_option maxRecDepth 8192

/-!
Shallow embedding of `app.py` (Flask backend for a personal-finance chatbot).
Python strings are modelled as `List Char` (type `Str`), Python floats as `ℚ`,
JSON scalar values as the inductive `JVal`, and Python exceptions as `Option`
(`none` = the request handler raises).  Each definition mirrors one function
or expression of `app.py`; theorems at the end settle the frozen claims.
-/

abbrev Str := List Char

/-- ASCII whitespace, as stripped by Python `str.strip()` (the code only ever
strips output of ASCII-producing operations, so the ASCII set is faithful). -/
def isWS (c : Char) : Bool :=
  c = ' ' || c = '\t' || c = '\n' || c = '\r' || c = '\x0b' || c = '\x0c'

/-- Python `s.strip()`: drop whitespace from both ends. -/
def stripChars (s : Str) : Str :=
  (((s.dropWhile isWS).reverse.dropWhile isWS)).reverse

/-- Python `s.split(tok)[0]` for a non-empty `tok`: the prefix of `s` before
the first occurrence of `tok` (all of `s` when `tok` does not occur). -/
def cutAt (tok : Str) : Str → Str
  | [] => []
  | c :: rest => if tok <+: (c :: rest) then [] else c :: cutAt tok rest

/-- Python `text.split("\n")` (note `"".split("\n") = [""]`). -/
def splitLines : Str → List Str
  | [] => [[]]
  | c :: rest =>
    if c = '\n' then [] :: splitLines rest
    else
      match splitLines rest with
      | [] => [[c]]
      | l :: ls => (c :: l) :: ls

/-- Python `"\n".join(lines)`. -/
def joinLines : List Str → Str
  | [] => []
  | [l] => l
  | l :: l2 :: ls => l ++ '\n' :: joinLines (l2 :: ls)

/-- The loop body of `clean_text` in `app.py` lines 39-42: append `line` to
`final` unless `final` is non-empty and its last element strips equal. -/
def cleanStep (final : List Str) (line : Str) : List Str :=
  match final.getLast? with
  | none => final ++ [line]
  | some last => if stripChars line ≠ stripChars last then final ++ [line] else final

/-- The `final` list built by `clean_text`. -/
def clean_lines (ls : List Str) : List Str :=
  ls.foldl cleanStep []

/-- `clean_text` from `app.py` lines 37-43: collapse consecutive duplicate
lines (single lookback, comparing stripped forms), rejoin, strip. -/
def clean_text (text : Str) : Str :=
  stripChars (joinLines (clean_lines (splitLines text)))

/-- The stop-token list of `app.py` line 65, in loop order. -/
def stopTokens : List Str :=
  ["User:".data, "Assistant:".data, "Instruction:".data, "Answer:".data]

/-- One iteration of the stop-token loop (`app.py` lines 65-67):
`if stop_token in result: result = result.split(stop_token)[0].strip()`. -/
def stopCut (r tok : Str) : Str :=
  if tok <:+: r then stripChars (cutAt tok r) else r

/-- The whole stop-token loop: fold `stopCut` over the four tokens in order. -/
def applyStops (s : Str) : Str :=
  stopTokens.foldl stopCut s

/-- The generation backend of `app.py` lines 13-22 and 49-60: either the
import/pipeline construction failed at startup (`unavailable`), or a pipeline
is loaded; a loaded pipeline, given the prompt and `max_len`, either raises
(`Except.error`) or returns `generated_text` (prompt echo + continuation). -/
inductive Backend where
  | unavailable
  | available (f : Str → ℕ → Except Str Str)

/-- The fallback string of `app.py` line 72. -/
def fallbackMsg : Str :=
  "Sorry — AI backend not configured. Install HuggingFace/Torch or connect IBM/Granite.".data

/-- `generate_text` from `app.py` lines 48-72: on the success path, strip the
echoed prompt (`generated[len(prompt):].strip()`), run the stop-token loop,
then `clean_text`; on an unavailable backend or any raised error, return the
fixed fallback string. -/
def generate_text (backend : Backend) (prompt : Str) (max_len : ℕ) : Str :=
  match backend with
  | .unavailable => fallbackMsg
  | .available f =>
    match f prompt max_len with
    | .error _ => fallbackMsg
    | .ok generated =>
      clean_text (applyStops (stripChars (generated.drop prompt.length)))

/-- A JSON scalar value as it arrives in a request body field. -/
inductive JVal where
  | jnull
  | jnum (q : ℚ)
  | jstr (s : Str)
  | jbool (b : Bool)
deriving DecidableEq

/-- Python truthiness of a JSON scalar (`None`, `0`, `""`, `False` are falsy). -/
def truthy : JVal → Bool
  | .jnull => false
  | .jnum q => decide (q ≠ 0)
  | .jstr s => decide (s ≠ [])
  | .jbool b => b

/-- Accumulate decimal digits into a natural number. -/
def digitsVal (ds : List Char) : ℕ :=
  ds.foldl (fun a c => 10 * a + (c.toNat - 48)) 0

/-- Models Python's built-in `float(str)` on finite decimal literals: optional
sign, then digits with an optional fractional point (at least one digit
overall); anything else raises, i.e. returns `none`.  (Python also accepts
exponents and `inf`/`nan`; the code never produces those and no claim touches
them.) -/
def parseFloat (s : Str) : Option ℚ :=
  let signRest : ℚ × Str :=
    match s with
    | '-' :: r => (-1, r)
    | '+' :: r => (1, r)
    | r => (1, r)
  let intPart := signRest.2.takeWhile Char.isDigit
  let rest := signRest.2.dropWhile Char.isDigit
  match rest with
  | [] => if intPart = [] then none else some (signRest.1 * digitsVal intPart)
  | '.' :: frac =>
    if frac.all Char.isDigit ∧ (intPart ≠ [] ∨ frac ≠ []) then
      some (signRest.1 * ((digitsVal intPart : ℚ) + digitsVal frac / 10 ^ frac.length))
    else none
  | _ => none

/-- Python's built-in `float(x)` applied to a JSON scalar: numbers and bools
convert, strings are parsed (surrounding whitespace ignored), `None` raises. -/
def pyFloat : JVal → Option ℚ
  | .jnull => none
  | .jnum q => some q
  | .jstr s => parseFloat (stripChars s)
  | .jbool b => some (if b then 1 else 0)

/-- The coercion expression `float(t.get(k, 0) or 0)` used for `incomeMonthly`
(`app.py` line 106) and for every transaction `amount` (lines 110 and 132);
the argument is `none` when the key is absent. -/
def coerceNum (v : Option JVal) : Option ℚ :=
  let x := v.getD (.jnum 0)
  pyFloat (if truthy x then x else .jnum 0)

/-- The expression `(t.get("desc", "") or "").lower()` of `app.py` line 131:
absent or falsy `desc` becomes `""`; calling `.lower()` on a non-string
raises (`none`). -/
def getDesc (v : Option JVal) : Option Str :=
  let x := v.getD (.jstr [])
  match (if truthy x then x else .jstr []) with
  | .jstr s => some (s.map Char.toLower)
  | _ => none

/-- `PROFILE_CONTEXTS` from `app.py` lines 27-32, as an insertion-ordered
association list (Python dicts preserve insertion order). -/
def PROFILE_CONTEXTS : List (Str × Str) :=
  [("student".data,
    "User is a student with limited income. Explain things in simple language with practical, low-cost steps.".data),
   ("professional".data,
    "User is a working professional. Provide formal, actionable advice including tax and investment options.".data),
   ("retired".data,
    "User is retired or near-retired. Focus on safety, fixed income, healthcare, and low-risk options.".data),
   ("default".data,
    "Provide clear and practical personal finance advice.".data)]

/-- Python `d.get(k, dflt)` over an association list. -/
def dictGet (m : List (Str × Str)) (k : Str) (dflt : Str) : Str :=
  match m with
  | [] => dflt
  | (k2, v) :: rest => if k2 = k then v else dictGet rest k dflt

/-- Python `k in d` over an association list. -/
def dictMem (m : List (Str × Str)) (k : Str) : Bool :=
  match m with
  | [] => false
  | (k2, _) :: rest => k2 = k || dictMem rest k

/-- The `"default"` profile sentence. -/
def defaultContext : Str :=
  "Provide clear and practical personal finance advice.".data

/-- Context resolution of `/api/chat` (`app.py` lines 90-94): the demographic
defaults to `"default"` when absent, is validated against `PROFILE_CONTEXTS`
(falling back to `"default"`), then looked up with default `""`. -/
def chat_context (demographic : Option Str) : Str :=
  let d := demographic.getD "default".data
  let d2 := if dictMem PROFILE_CONTEXTS d then d else "default".data
  dictGet PROFILE_CONTEXTS d2 []

/-- Context resolution of `/api/budget` (`app.py` lines 108 and 115): the
demographic defaults to `"default"` when absent and is looked up with default
`""` — with no validation step. -/
def budget_context (demographic : Option Str) : Str :=
  dictGet PROFILE_CONTEXTS (demographic.getD "default".data) []

/-- Context resolution of `/api/insights` (`app.py` lines 127 and 151):
identical to the budget endpoint, no validation step. -/
def insights_context (demographic : Option Str) : Str :=
  dictGet PROFILE_CONTEXTS (demographic.getD "default".data) []

/-- Integer part of Python's `repr` of a float: decimal digits with sign. -/
def intStr (n : ℤ) : Str :=
  (toString n).data

/-- Models Python's float formatting `f"{x}"` on values with an integral
magnitude (every value any theorem below evaluates): `2000.0`, `-3.0`, etc.
A non-integral rational is rendered as `num/den`, a branch no verified claim
reaches (Python would print the shortest round-trip decimal there). -/
def showFloat (q : ℚ) : Str :=
  if q.den = 1 then intStr q.num ++ ".0".data
  else intStr q.num ++ "/".data ++ (toString q.den).data

/-- Models Python's fixed-point formatting `f"{x:.2f}"` on values `q` with
`100*q` integral, i.e. `q.den ∣ 100` (every value any theorem below
evaluates); other values fall back to `showFloat`, a branch no verified claim
reaches.  `m` below equals `100*q` as an integer. -/
def showFixed2 (q : ℚ) : Str :=
  if q.den ∣ 100 then
    let m := q.num * ((100 / q.den : ℕ) : ℤ)
    let a := m.natAbs
    (if m < 0 then "-".data else []) ++ (toString (a / 100)).data ++ ".".data ++
      (if a % 100 < 10 then "0".data else []) ++ (toString (a % 100)).data
  else showFloat q

/-- A transaction record: the two fields the code reads (`desc`, `amount`),
each `none` when the key is absent from the request JSON. -/
structure Txn where
  desc : Option JVal := none
  amount : Option JVal := none
deriving DecidableEq

/-- Join strings with a separator (`sep.join(...)`). -/
def joinSep (sep : Str) : List Str → Str
  | [] => []
  | [x] => x
  | x :: y :: ys => x ++ sep ++ joinSep sep (y :: ys)

/-- `json.dumps` of a JSON scalar (string escaping omitted: no claim passes a
string needing escapes through a prompt). -/
def dumpsJVal : JVal → Str
  | .jnull => "null".data
  | .jnum q => showFloat q
  | .jstr s => "\"".data ++ s ++ "\"".data
  | .jbool b => if b then "true".data else "false".data

/-- `json.dumps` of one transaction dict, fields in `desc`, `amount` order. -/
def dumpsTxn (t : Txn) : Str :=
  "\x7b".data ++
    joinSep ", ".data
      ((match t.desc with
        | some v => ["\"desc\": ".data ++ dumpsJVal v]
        | none => []) ++
       (match t.amount with
        | some v => ["\"amount\": ".data ++ dumpsJVal v]
        | none => [])) ++
  "\x7d".data

/-- `json.dumps(txns)` (`app.py` line 115). -/
def dumpsTxns (ts : List Txn) : Str :=
  "[".data ++ joinSep ", ".data (ts.map dumpsTxn) ++ "]".data

/-- `json.dumps(categories)` (`app.py` line 151). -/
def dumpsCats (cats : List (Str × ℚ)) : Str :=
  "\x7b".data ++
    joinSep ", ".data (cats.map fun kv => "\"".data ++ kv.1 ++ "\": ".data ++ showFloat kv.2) ++
  "\x7d".data

/-- The `/api/chat` prompt, `app.py` line 96. -/
def chat_prompt (context complexity message : Str) : Str :=
  context ++ "\nComplexity: ".data ++ complexity ++ "\nInstruction: ".data ++
    message ++ "\nAnswer:".data

/-- The `/api/budget` prompt, `app.py` line 115. -/
def budget_prompt (context txnsJson : Str) (income : ℚ) : Str :=
  context ++ "\nGiven the following transactions: ".data ++ txnsJson ++
    "\nIncome: ".data ++ showFloat income ++
    "\nInstruction: Write an easy-to-read budget summary and 3 suggestions to improve savings.\nAnswer:".data

/-- The `/api/insights` prompt, `app.py` line 151. -/
def insights_prompt (context catsJson : Str) : Str :=
  context ++ "\nTransactions summary: ".data ++ catsJson ++
    "\nInstruction: Give 3 actionable spending insights in short sentences.\nAnswer:".data

/-- `/api/chat` (`app.py` lines 86-98): resolve the context, build the prompt,
generate with `max_len=200`.  Absent fields take the code's defaults. -/
def api_chat (backend : Backend) (message demographic complexity : Option Str) : Str :=
  generate_text backend
    (chat_prompt (chat_context demographic) (complexity.getD "moderate".data)
      (message.getD [])) 200

/-- `sum(float(t.get("amount", 0) or 0) for t in txns)` (`app.py` line 110):
Python `sum` is a left fold from `0`; a coercion error aborts the request. -/
def sumAmountsFrom (acc : ℚ) : List Txn → Option ℚ
  | [] => some acc
  | t :: ts => do
    let a ← coerceNum t.amount
    sumAmountsFrom (acc + a) ts

def sumAmounts (txns : List Txn) : Option ℚ :=
  sumAmountsFrom 0 txns

/-- The deterministic summary block of `app.py` line 113. -/
def budget_block (income total savings : ℚ) : Str :=
  "Monthly Income: ₹".data ++ showFloat income ++
    "\nTotal Spent: ₹".data ++ showFloat total ++
    "\nEstimated Savings: ₹".data ++ showFloat savings ++ "\n".data

/-- The result of `/api/budget`: the three computed figures plus the returned
`summary` string. -/
structure BudgetOut where
  income : ℚ
  totalSpent : ℚ
  savings : ℚ
  summary : Str
deriving DecidableEq

/-- `/api/budget` (`app.py` lines 103-118): coerce income, sum coerced
amounts, build the deterministic block, append the generated paragraph.
`none` means the handler raises (uncaught coercion error). -/
def api_budget (backend : Backend) (incomeMonthly : Option JVal)
    (transactions : Option (List Txn)) (demographic : Option Str) : Option BudgetOut := do
  let income ← coerceNum incomeMonthly
  let txns := transactions.getD []
  let total ← sumAmounts txns
  let savings := income - total
  let prompt := budget_prompt (budget_context demographic) (dumpsTxns txns) income
  let ai := generate_text backend prompt 180
  some ⟨income, total, savings,
    budget_block income total savings ++ "\nAI Summary:\n".data ++ ai⟩

/-- Python `any(k in desc for k in ks)`. -/
def containsAny (d : Str) (ks : List Str) : Bool :=
  ks.any fun k => decide (k <:+: d)

/-- The category chain of `app.py` lines 133-142, applied to the lowered
description. -/
def categorize (descLower : Str) : Str :=
  if containsAny descLower ["rent".data, "home".data] then "Rent".data
  else if containsAny descLower ["food".data, "dine".data, "restaurant".data, "cafe".data] then
    "Dining".data
  else if containsAny descLower ["grocery".data, "supermarket".data] then "Grocery".data
  else if containsAny descLower ["tax".data, "income tax".data] then "Taxes".data
  else "Other".data

/-- `categories[cat] = categories.get(cat, 0) + amt` on an insertion-ordered
dict: update in place when present, append otherwise. -/
def addAmt : List (Str × ℚ) → Str → ℚ → List (Str × ℚ)
  | [], c, a => [(c, a)]
  | (k, v) :: rest, c, a =>
    if k = c then (k, v + a) :: rest else (k, v) :: addAmt rest c a

/-- The accumulation loop of `app.py` lines 130-143 starting from `cats`;
`none` when a `desc` or `amount` coercion raises. -/
def buildCatsFrom (cats : List (Str × ℚ)) : List Txn → Option (List (Str × ℚ))
  | [] => some cats
  | t :: ts => do
    let d ← getDesc t.desc
    let a ← coerceNum t.amount
    buildCatsFrom (addAmt cats (categorize d) a) ts

/-- One comparison step of Python `max(..., key=lambda x: x[1])`: the running
best is replaced only when the new value is strictly greater. -/
def pyMaxStep (b y : Str × ℚ) : Str × ℚ :=
  if y.2 > b.2 then y else b

/-- Python `max(categories.items(), key=lambda x: x[1])` over the insertion-
ordered dict; `none` for an empty dict (where the code takes the else branch
instead of calling `max`). -/
def pyMaxBySnd : List (Str × ℚ) → Option (Str × ℚ)
  | [] => none
  | x :: xs => some (xs.foldl pyMaxStep x)

/-- The top-category sentence of `app.py` line 147. -/
def topLine (top : Str × ℚ) : Str :=
  "Top spending category: ".data ++ top.1 ++ " (₹".data ++ showFixed2 top.2 ++
    "). Consider reducing it by 10%.".data

/-- The no-transactions sentence of `app.py` line 149. -/
def noTxnsMsg : Str :=
  "No transactions supplied — provide some transactions for insights.".data

/-- `/api/insights` (`app.py` lines 123-154): bucket and sum the transactions,
report the top category (or the no-transactions sentence), append the
generated suggestions.  `none` means the handler raises. -/
def api_insights (backend : Backend) (transactions : Option (List Txn))
    (demographic : Option Str) : Option Str := do
  let txns := transactions.getD []
  let cats ← buildCatsFrom [] txns
  let insights :=
    match pyMaxBySnd cats with
    | some top => topLine top
    | none => noTxnsMsg
  let prompt := insights_prompt (insights_context demographic) (dumpsCats cats)
  let ai := generate_text backend prompt 140
  some (insights ++ "\n\nAI Suggestions:\n".data ++ ai)

/-- Modelled from the spec (claims C3): truncate at "the first occurrence of
any of the literal marker strings …, scanning markers in a fixed priority
order and taking the first match found per marker" — i.e. a single cut at the
first marker, in priority order, that occurs at all. -/
def specPriorityCut (s : Str) : Str :=
  match stopTokens.find? (fun tok => decide (tok <:+: s)) with
  | some tok => stripChars (cutAt tok s)
  | none => s

/-- Modelled from the spec (claim C5): single-lookback dedup — keep the first
line, then drop each line iff its stripped form equals the stripped form of
the previously kept line. -/
def specDedupFrom (prev : Str) : List Str → List Str
  | [] => []
  | l :: ls =>
    if stripChars l = stripChars prev then specDedupFrom prev ls
    else l :: specDedupFrom l ls

/-- Modelled from the spec (claim C5): the full single-lookback dedup. -/
def specDedup : List Str → List Str
  | [] => []
  | l :: ls => l :: specDedupFrom l ls

theorem nil_pref (l : Str) : [] <+: l :=
  ⟨l, rfl⟩

theorem nil_infx (l : Str) : [] <:+: l :=
  ⟨[], l, by simp⟩

theorem rev_pref_iff (l₁ l₂ : Str) : l₁.reverse <+: l₂.reverse ↔ l₁ <:+ l₂ := by
  exact List.reverse_prefix

/-- Reversing a `dropWhile` of the reverse only removes a suffix. -/
theorem dropWhile_rev_pref (p : Char → Bool) (l : Str) :
    (l.reverse.dropWhile p).reverse <+: l := by
  have h : l.reverse.dropWhile p <:+ l.reverse := List.dropWhile_suffix p
  have h2 := (rev_pref_iff (l.reverse.dropWhile p) l.reverse).mpr h
  simpa using h2

/-- `stripChars` returns a contiguous piece of its input. -/
theorem stripChars_isInfix_self (s : Str) : stripChars s <:+: s := by
  have h1 : s.dropWhile isWS <:+ s := List.dropWhile_suffix isWS
  have h2 : stripChars s <+: s.dropWhile isWS := dropWhile_rev_pref isWS (s.dropWhile isWS)
  exact h2.isInfix.trans h1.isInfix

/-- `cutAt` returns a prefix of its input. -/
theorem cutAt_isPref (tok : Str) : ∀ s, cutAt tok s <+: s
  | [] => by simp [cutAt]
  | c :: rest => by
    simp only [cutAt]
    split
    · exact nil_pref _
    · exact List.cons_prefix_cons.mpr ⟨rfl, cutAt_isPref tok rest⟩

/-- The prefix kept by `cutAt tok` contains no occurrence of `tok`. -/
theorem cutAt_not_contains (tok : Str) (hne : tok ≠ []) : ∀ s, ¬ tok <:+: cutAt tok s
  | [] => by
    intro h
    exact hne (List.sublist_nil.mp h.sublist)
  | c :: rest => by
    simp only [cutAt]
    split
    · intro h
      exact hne (List.sublist_nil.mp h.sublist)
    · rename_i hnp
      intro hin
      rcases List.infix_cons_iff.mp hin with hp | hi
      · exact hnp (hp.trans (List.cons_prefix_cons.mpr ⟨rfl, cutAt_isPref tok rest⟩))
      · exact cutAt_not_contains tok hne rest hi

/-- One stop-token pass returns a contiguous piece of its input. -/
theorem stopCut_isInfix_self (r tok : Str) : stopCut r tok <:+: r := by
  unfold stopCut
  split
  · exact (stripChars_isInfix_self _).trans (cutAt_isPref tok r).isInfix
  · exact List.infix_refl r

/-- A substring absent from the input stays absent after a stop-token pass. -/
theorem stopCut_preserve (r tok p : Str) (h : ¬ p <:+: r) : ¬ p <:+: stopCut r tok :=
  fun hp => h (hp.trans (stopCut_isInfix_self r tok))

/-- After its own pass, a non-empty stop token no longer occurs. -/
theorem stopCut_removes (r tok : Str) (hne : tok ≠ []) : ¬ tok <:+: stopCut r tok := by
  unfold stopCut
  split
  · intro h
    exact cutAt_not_contains tok hne r (h.trans (stripChars_isInfix_self _))
  · rename_i h
    exact h

theorem applyStops_eq (s : Str) :
    applyStops s =
      stopCut (stopCut (stopCut (stopCut s "User:".data) "Assistant:".data)
        "Instruction:".data) "Answer:".data := rfl

/-- After the whole stop-token loop, none of the four markers occurs. -/
theorem applyStops_no_marker (s : Str) :
    ¬ "User:".data <:+: applyStops s ∧ ¬ "Assistant:".data <:+: applyStops s ∧
    ¬ "Instruction:".data <:+: applyStops s ∧ ¬ "Answer:".data <:+: applyStops s := by
  rw [applyStops_eq]
  refine ⟨?_, ?_, ?_, ?_⟩
  · exact stopCut_preserve _ _ _ (stopCut_preserve _ _ _ (stopCut_preserve _ _ _
      (stopCut_removes _ _ (by decide))))
  · exact stopCut_preserve _ _ _ (stopCut_preserve _ _ _ (stopCut_removes _ _ (by decide)))
  · exact stopCut_preserve _ _ _ (stopCut_removes _ _ (by decide))
  · exact stopCut_removes _ _ (by decide)

/-- A prefix of `a ++ c :: b` that avoids `c` is a prefix of `a`. -/
theorem pref_of_pref_append : ∀ (p a b : Str) (c : Char),
    c ∉ p → p <+: a ++ c :: b → p <+: a
  | [], _, _, _, _, _ => nil_pref _
  | q :: p', [], _, c, hc, h => by
    rcases List.cons_prefix_cons.mp h with ⟨h1, -⟩
    subst h1
    exact absurd (List.mem_cons_self q p') hc
  | q :: p', x :: a', b, c, hc, h => by
    rcases List.cons_prefix_cons.mp h with ⟨h1, h2⟩
    subst h1
    exact List.cons_prefix_cons.mpr
      ⟨rfl, pref_of_pref_append p' a' b c (fun hm => hc (List.mem_cons_of_mem _ hm)) h2⟩

/-- A substring of `a ++ c :: b` that avoids `c` lies in `a` or in `b`. -/
theorem split_around_char (p : Str) (c : Char) (hc : c ∉ p) :
    ∀ (a b : Str), p <:+: a ++ c :: b → p <:+: a ∨ p <:+: b := by
  intro a
  induction a with
  | nil =>
    intro b h
    simp only [List.nil_append] at h
    rcases List.infix_cons_iff.mp h with hp | hi
    · cases p with
      | nil => exact Or.inl (nil_infx _)
      | cons q p' =>
        rcases List.cons_prefix_cons.mp hp with ⟨h1, -⟩
        subst h1
        exact absurd (List.mem_cons_self _ _) hc
    · exact Or.inr hi
  | cons x a' ih =>
    intro b h
    rcases List.infix_cons_iff.mp h with hp | hi
    · exact Or.inl (pref_of_pref_append p (x :: a') b c hc hp).isInfix
    · rcases ih b hi with h1 | h2
      · exact Or.inl (List.infix_cons h1)
      · exact Or.inr h2

/-- A non-empty newline-free substring of a joined line list occurs inside
one of the lines. -/
theorem joinLines_mem_of_infx (p : Str) (hp : p ≠ []) (hn : '\n' ∉ p) :
    ∀ ls, p <:+: joinLines ls → ∃ l ∈ ls, p <:+: l
  | [] => by
    intro h
    exact absurd (List.sublist_nil.mp h.sublist) hp
  | [l] => fun h => ⟨l, by simp, h⟩
  | l :: l2 :: ls => by
    intro h
    have h0 : p <:+: l ++ '\n' :: joinLines (l2 :: ls) := h
    rcases split_around_char p '\n' hn l (joinLines (l2 :: ls)) h0 with h1 | h2
    · exact ⟨l, by simp, h1⟩
    · rcases joinLines_mem_of_infx p hp hn (l2 :: ls) h2 with ⟨l3, hl3, hinf⟩
      exact ⟨l3, List.mem_cons_of_mem _ hl3, hinf⟩

theorem splitLines_ne_nil : ∀ s, splitLines s ≠ []
  | [] => by simp [splitLines]
  | c :: rest => by
    simp only [splitLines]
    split
    · simp
    · split <;> simp

/-- The first line produced by `splitLines` is a prefix of the input. -/
theorem splitLines_head_pref : ∀ (s : Str) (l : Str) (ls : List Str),
    splitLines s = l :: ls → l <+: s
  | [], l, ls, h => by
    simp only [splitLines, List.cons.injEq] at h
    rcases h with ⟨h1, -⟩
    subst h1
    exact nil_pref _
  | c :: rest, l, ls, h => by
    simp only [splitLines] at h
    split at h
    · injection h with h1 h2
      subst h1
      exact nil_pref _
    · rename_i hc
      cases hrec : splitLines rest with
      | nil => exact absurd hrec (splitLines_ne_nil rest)
      | cons l0 ls0 =>
        rw [hrec] at h
        injection h with h1 h2
        subst h1
        exact List.cons_prefix_cons.mpr ⟨rfl, splitLines_head_pref rest l0 ls0 hrec⟩

/-- Every line produced by `splitLines` occurs inside the input. -/
theorem splitLines_mem_infx : ∀ (s : Str), ∀ l ∈ splitLines s, l <:+: s
  | [] => by
    intro l hl
    simp only [splitLines, List.mem_singleton] at hl
    subst hl
    exact nil_infx _
  | c :: rest => by
    intro l hl
    simp only [splitLines] at hl
    split at hl
    · rcases List.mem_cons.mp hl with h1 | h2
      · subst h1
        exact nil_infx _
      · exact List.infix_cons (splitLines_mem_infx rest l h2)
    · cases hrec : splitLines rest with
      | nil => exact absurd hrec (splitLines_ne_nil rest)
      | cons l0 ls0 =>
        rw [hrec] at hl
        rcases List.mem_cons.mp hl with h1 | h2
        · subst h1
          exact (List.cons_prefix_cons.mpr ⟨rfl, splitLines_head_pref rest l0 ls0 hrec⟩).isInfix
        · have hmem : l ∈ splitLines rest := by
            rw [hrec]
            exact List.mem_cons_of_mem _ h2
          exact List.infix_cons (splitLines_mem_infx rest l hmem)

theorem cleanStep_result (final : List Str) (line : Str) :
    cleanStep final line = final ++ [line] ∨ cleanStep final line = final := by
  unfold cleanStep
  split
  · exact Or.inl rfl
  · split
    · exact Or.inl rfl
    · exact Or.inr rfl

/-- The dedup loop keeps only lines of its input (plus its accumulator). -/
theorem foldl_cleanStep_mem : ∀ (ls acc : List Str), ∀ l ∈ List.foldl cleanStep acc ls,
    l ∈ acc ∨ l ∈ ls
  | [], acc => fun l h => Or.inl h
  | line :: ls, acc => by
    intro l h
    rcases foldl_cleanStep_mem ls (cleanStep acc line) l h with h2 | h2
    · rcases cleanStep_result acc line with he | he
      · rw [he] at h2
        rcases List.mem_append.mp h2 with h3 | h3
        · exact Or.inl h3
        · simp only [List.mem_singleton] at h3
          subst h3
          exact Or.inr (List.mem_cons_self _ _)
      · rw [he] at h2
        exact Or.inl h2
    · exact Or.inr (List.mem_cons_of_mem _ h2)

/-- A non-empty newline-free substring absent from the input cannot appear in
the output of `clean_text`. -/
theorem clean_text_preserve (p t : Str) (hp : p ≠ []) (hn : '\n' ∉ p)
    (h : ¬ p <:+: t) : ¬ p <:+: clean_text t := by
  intro hin
  have h1 : p <:+: joinLines (clean_lines (splitLines t)) :=
    hin.trans (stripChars_isInfix_self _)
  rcases joinLines_mem_of_infx p hp hn _ h1 with ⟨l, hl, hinf⟩
  have h2 : l ∈ splitLines t := by
    rcases foldl_cleanStep_mem (splitLines t) [] l hl with h3 | h3
    · simp at h3
    · exact h3
  exact h (hinf.trans (splitLines_mem_infx t l h2))

theorem getLast?_app (a : List Str) (l : Str) : (a ++ [l]).getLast? = some l := by
  simp

/-- The dedup loop, started on an accumulator ending in `l`, computes the
spec-level single-lookback dedup with previous kept line `l`. -/
theorem foldl_cleanStep_eq : ∀ (ls : List Str) (a : List Str) (l : Str),
    List.foldl cleanStep (a ++ [l]) ls = a ++ l :: specDedupFrom l ls
  | [], a, l => by simp [specDedupFrom]
  | line :: ls, a, l => by
    simp only [List.foldl_cons]
    have hstep : cleanStep (a ++ [l]) line =
        if stripChars line = stripChars l then a ++ [l] else (a ++ [l]) ++ [line] := by
      unfold cleanStep
      rw [getLast?_app]
      by_cases hc : stripChars line = stripChars l
      · simp [hc]
      · simp [hc]
    by_cases hc : stripChars line = stripChars l
    · rw [hstep, if_pos hc, foldl_cleanStep_eq ls a l]
      simp [specDedupFrom, hc]
    · rw [hstep, if_neg hc, foldl_cleanStep_eq ls (a ++ [l]) line]
      simp [specDedupFrom, hc]

/-- The code's dedup loop equals the spec-level single-lookback dedup. -/
theorem clean_lines_eq_specDedup : ∀ ls, clean_lines ls = specDedup ls
  | [] => rfl
  | l :: ls => by
    show List.foldl cleanStep [] (l :: ls) = l :: specDedupFrom l ls
    rw [List.foldl_cons]
    have h0 : cleanStep [] l = [] ++ [l] := rfl
    rw [h0, foldl_cleanStep_eq ls [] l]
    simp

theorem dropWhile_dropWhile (p : Char → Bool) : ∀ l : Str,
    (l.dropWhile p).dropWhile p = l.dropWhile p
  | [] => rfl
  | c :: l => by
    by_cases h : p c
    · simp [List.dropWhile_cons, h, dropWhile_dropWhile p l]
    · simp [List.dropWhile_cons, h]

/-- A prefix of a front-stripped list is front-stripped. -/
theorem dropWhile_of_pref (y z : Str) (hy : y.dropWhile isWS = y) (hz : z <+: y) :
    z.dropWhile isWS = z := by
  cases z with
  | nil => rfl
  | cons c t =>
    cases y with
    | nil =>
      rw [List.prefix_nil] at hz
      exact absurd hz (by simp)
    | cons d u =>
      rcases List.cons_prefix_cons.mp hz with ⟨h1, -⟩
      subst h1
      have hc : isWS c = false := by
        by_contra hcc
        simp only [Bool.not_eq_false] at hcc
        rw [List.dropWhile_cons, if_pos hcc] at hy
        have hlen := congrArg List.length hy
        have hle : (u.dropWhile isWS).length ≤ u.length :=
          (List.dropWhile_suffix isWS).length_le
        simp only [List.length_cons] at hlen
        omega
      rw [List.dropWhile_cons]
      simp [hc]

/-- Stripping is idempotent: `clean_text` output is already stripped. -/
theorem stripChars_idem (s : Str) : stripChars (stripChars s) = stripChars s := by
  have hF : (stripChars s).dropWhile isWS = stripChars s := by
    apply dropWhile_of_pref (s.dropWhile isWS)
    · exact dropWhile_dropWhile isWS s
    · exact dropWhile_rev_pref isWS (s.dropWhile isWS)
  have hdef : stripChars s = ((s.dropWhile isWS).reverse.dropWhile isWS).reverse := rfl
  calc stripChars (stripChars s)
      = (((stripChars s).dropWhile isWS).reverse.dropWhile isWS).reverse := rfl
    _ = ((stripChars s).reverse.dropWhile isWS).reverse := by rw [hF]
    _ = ((((s.dropWhile isWS).reverse.dropWhile isWS).reverse).reverse.dropWhile isWS).reverse := by
        rw [← hdef]
    _ = (((s.dropWhile isWS).reverse.dropWhile isWS).dropWhile isWS).reverse := by
        rw [List.reverse_reverse]
    _ = ((s.dropWhile isWS).reverse.dropWhile isWS).reverse := by
        rw [dropWhile_dropWhile]
    _ = stripChars s := rfl

/-- Python `max(..., key=...)` as a fold: the result is either the seed (when
nothing beats it) or the first element that strictly beats everything before
it and is never strictly beaten afterwards. -/
theorem foldl_pyMaxStep (xs : List (Str × ℚ)) : ∀ b : Str × ℚ,
    (List.foldl pyMaxStep b xs = b ∧ ∀ y ∈ xs, y.2 ≤ b.2) ∨
    ∃ l1 z l2, xs = l1 ++ z :: l2 ∧ List.foldl pyMaxStep b xs = z ∧
      (∀ y ∈ b :: l1, y.2 < z.2) ∧ (∀ y ∈ l2, y.2 ≤ z.2) := by
  induction xs with
  | nil =>
    intro b
    left
    exact ⟨rfl, by simp⟩
  | cons y rest ih =>
    intro b
    rw [List.foldl_cons]
    by_cases hy : y.2 > b.2
    · have hstep : pyMaxStep b y = y := by
        unfold pyMaxStep
        rw [if_pos hy]
      rw [hstep]
      rcases ih y with ⟨h1, h2⟩ | ⟨l1, z, l2, hxs, hf, hlt, hle⟩
      · right
        refine ⟨[], y, rest, by simp, h1, ?_, h2⟩
        intro u hu
        rcases List.mem_cons.mp hu with h | h
        · subst h
          exact hy
        · simp at h
      · right
        refine ⟨y :: l1, z, l2, by simp [hxs], hf, ?_, hle⟩
        intro u hu
        rcases List.mem_cons.mp hu with h | h
        · rw [h]
          exact lt_trans hy (hlt y (List.mem_cons_self _ _))
        · exact hlt u h
    · have hstep : pyMaxStep b y = b := by
        unfold pyMaxStep
        rw [if_neg hy]
      rw [hstep]
      push_neg at hy
      rcases ih b with ⟨h1, h2⟩ | ⟨l1, z, l2, hxs, hf, hlt, hle⟩
      · left
        refine ⟨h1, ?_⟩
        intro u hu
        rcases List.mem_cons.mp hu with h | h
        · subst h
          exact hy
        · exact h2 u h
      · right
        refine ⟨y :: l1, z, l2, by simp [hxs], hf, ?_, hle⟩
        intro u hu
        rcases List.mem_cons.mp hu with h | h
        · rw [h]
          exact hlt b (List.mem_cons_self _ _)
        · rcases List.mem_cons.mp h with h3 | h3
          · rw [h3]
            exact lt_of_le_of_lt hy (hlt b (List.mem_cons_self _ _))
          · exact hlt u (List.mem_cons_of_mem _ h3)

/-- The element Python's `max(items, key=value)` picks is a maximal one, and
everything strictly before it in iteration order is strictly smaller (ties go
to the first-seen category). -/
theorem pyMaxBySnd_spec (cats : List (Str × ℚ)) (z : Str × ℚ)
    (h : pyMaxBySnd cats = some z) :
    ∃ l1 l2, cats = l1 ++ z :: l2 ∧ (∀ y ∈ cats, y.2 ≤ z.2) ∧ ∀ y ∈ l1, y.2 < z.2 := by
  cases cats with
  | nil => simp [pyMaxBySnd] at h
  | cons x xs =>
    simp only [pyMaxBySnd, Option.some.injEq] at h
    rcases foldl_pyMaxStep xs x with ⟨h1, h2⟩ | ⟨l1, z2, l2, hxs, hf, hlt, hle⟩
    · have hz : z = x := by rw [← h, h1]
      subst hz
      refine ⟨[], xs, by simp, ?_, by simp⟩
      intro y hy
      rcases List.mem_cons.mp hy with h3 | h3
      · subst h3
        exact le_refl _
      · exact h2 y h3
    · have hz : z = z2 := by rw [← h, hf]
      subst hz
      refine ⟨x :: l1, l2, by simp [hxs], ?_, ?_⟩
      · intro y hy
        rcases List.mem_cons.mp hy with h3 | h3
        · subst h3
          exact le_of_lt (hlt y (List.mem_cons_self _ _))
        · rw [hxs] at h3
          rcases List.mem_append.mp h3 with h4 | h4
          · exact le_of_lt (hlt y (List.mem_cons_of_mem _ h4))
          · rcases List.mem_cons.mp h4 with h5 | h5
            · subst h5
              exact le_refl _
            · exact hle y h5
      · intro y hy
        rcases List.mem_cons.mp hy with h3 | h3
        · subst h3
          exact hlt y (List.mem_cons_self _ _)
        · exact hlt y (List.mem_cons_of_mem _ h3)

/-- The budget sum loop computes the sum of the coerced amounts. -/
theorem sumAmountsFrom_eq : ∀ (txns : List Txn) (acc : ℚ) (qs : List ℚ),
    txns.mapM (fun t => coerceNum t.amount) = some qs →
    sumAmountsFrom acc txns = some (acc + qs.sum)
  | [], acc, qs, h => by
    simp only [List.mapM_nil, pure, Option.some.injEq] at h
    subst h
    simp [sumAmountsFrom]
  | t :: ts, acc, qs, h => by
    rw [List.mapM_cons] at h
    cases ha : coerceNum t.amount with
    | none =>
      rw [ha] at h
      simp at h
    | some a =>
      rw [ha] at h
      cases hts : ts.mapM (fun t => coerceNum t.amount) with
      | none =>
        rw [hts] at h
        simp at h
      | some as =>
        rw [hts] at h
        simp only [Option.bind_eq_bind, Option.some_bind, pure, Option.some.injEq] at h
        subst h
        have hrec := sumAmountsFrom_eq ts (acc + a) as hts
        show (do
          let a2 ← coerceNum t.amount
          sumAmountsFrom (acc + a2) ts : Option ℚ) = some (acc + (a :: as).sum)
        rw [ha]
        simp only [Option.bind_eq_bind, Option.some_bind, hrec, List.sum_cons]
        rw [add_assoc]

theorem dictGet_of_not_mem (m : List (Str × Str)) (k : Str) (dflt : Str)
    (h : dictMem m k = false) : dictGet m k dflt = dflt := by
  induction m with
  | nil => rfl
  | cons kv rest ih =>
    obtain ⟨k2, v⟩ := kv
    simp only [dictMem, Bool.or_eq_false_iff, decide_eq_false_iff_not] at h
    simp only [dictGet, if_neg h.1]
    exact ih h.2

theorem suff_app (a b l : Str) (h : l <:+ b) : l <:+ a ++ b :=
  h.trans (List.suffix_append a b)

/-- On a backend success, `generate_text` runs the cleaning pipeline on the
continuation (the generated text minus the echoed prompt). -/
theorem generate_text_ok (f : Str → ℕ → Except Str Str) (prompt : Str) (max_len : ℕ)
    (g : Str) (h : f prompt max_len = .ok g) :
    generate_text (.available f) prompt max_len =
      clean_text (applyStops (stripChars (g.drop prompt.length))) := by
  show (match f prompt max_len with
    | Except.error _ => fallbackMsg
    | Except.ok generated =>
      clean_text (applyStops (stripChars (generated.drop prompt.length)))) =
    clean_text (applyStops (stripChars (g.drop prompt.length)))
  rw [h]

/-- On a backend error, `generate_text` returns the fallback string. -/
theorem generate_text_err (f : Str → ℕ → Except Str Str) (prompt : Str) (max_len : ℕ)
    (e : Str) (h : f prompt max_len = .error e) :
    generate_text (.available f) prompt max_len = fallbackMsg := by
  show (match f prompt max_len with
    | Except.error _ => fallbackMsg
    | Except.ok generated =>
      clean_text (applyStops (stripChars (generated.drop prompt.length)))) = fallbackMsg
  rw [h]

/-- Claim C4 (confirmed): whenever the generation backend is unavailable
(failed to load at startup) or raises any error at call time, `generate_text`
returns the fixed fallback string and never propagates an error. -/
theorem claim_C4 (prompt : Str) (max_len : ℕ) :
    generate_text .unavailable prompt max_len = fallbackMsg ∧
    ∀ (f : Str → ℕ → Except Str Str) (e : Str), f prompt max_len = .error e →
      generate_text (.available f) prompt max_len = fallbackMsg := by
  exact ⟨rfl, fun f e h => generate_text_err f prompt max_len e h⟩

theorem claim_C4_witness :
    generate_text (.available fun _ _ => .error "ImportError".data) "hi".data 150 = fallbackMsg ∧
    generate_text .unavailable "hi".data 150 = fallbackMsg :=
  ⟨(claim_C4 "hi".data 150).2 _ "ImportError".data rfl, (claim_C4 "hi".data 150).1⟩

/-- Claim C5 (confirmed): `clean_text` collapses consecutive duplicate lines
with a single lookback (a line is dropped iff its trimmed form equals the
trimmed form of the immediately preceding kept line); `["A","A","B","B","B","C"]`
dedups to `["A","B","C"]`, non-adjacent duplicates survive, and the final
result is trimmed of surrounding whitespace. -/
theorem claim_C5 :
    (∀ ls, clean_lines ls = specDedup ls) ∧
    clean_text "A\nA\nB\nB\nB\nC".data = "A\nB\nC".data ∧
    clean_lines ["A".data, "A".data, "B".data, "B".data, "B".data, "C".data] =
      ["A".data, "B".data, "C".data] ∧
    clean_lines ["A".data, "B".data, "A".data] = ["A".data, "B".data, "A".data] ∧
    ∀ s, stripChars (clean_text s) = clean_text s :=
  ⟨clean_lines_eq_specDedup, by decide, by decide, by decide,
   fun _ => stripChars_idem _⟩

/-- Claim C8 (confirmed): on the success path, the cleaned output of
`generate_text` never contains the substring `"Instruction:"`. -/
theorem claim_C8 (f : Str → ℕ → Except Str Str) (prompt : Str) (max_len : ℕ) (g : Str)
    (h : f prompt max_len = .ok g) :
    ¬ "Instruction:".data <:+: generate_text (.available f) prompt max_len := by
  rw [generate_text_ok f prompt max_len g h]
  exact clean_text_preserve _ _ (by decide) (by decide) (applyStops_no_marker _).2.2.1

theorem claim_C8_witness :
    ¬ "Instruction:".data <:+:
      generate_text (.available fun _ _ => .ok "Tip one. Instruction: evil".data) [] 140 :=
  claim_C8 _ [] 140 "Tip one. Instruction: evil".data rfl

/-- Claim C9 (confirmed): every prompt built by the three endpoints ends with
the literal marker `"Answer:"` (the prompt-builder definitions exhibit the
fixed order profile sentence, optional complexity line, task instruction,
trailing marker). -/
theorem claim_C9 (context complexity message txnsJson catsJson : Str) (income : ℚ) :
    "Answer:".data <:+ chat_prompt context complexity message ∧
    "Answer:".data <:+ budget_prompt context txnsJson income ∧
    "Answer:".data <:+ insights_prompt context catsJson := by
  have hA : "Answer:".data <:+ "\nAnswer:".data := by decide
  have hB : "Answer:".data <:+
      "\nInstruction: Write an easy-to-read budget summary and 3 suggestions to improve savings.\nAnswer:".data := by
    decide
  have hC : "Answer:".data <:+
      "\nInstruction: Give 3 actionable spending insights in short sentences.\nAnswer:".data := by
    decide
  exact ⟨suff_app _ _ _ hA, suff_app _ _ _ hB, suff_app _ _ _ hC⟩

/-- Claim C10 (confirmed): with an absent or empty transactions list,
`/api/insights` answers 200 with the deterministic portion equal to the
no-transactions sentence, followed by the generated suggestions. -/
theorem claim_C10 (backend : Backend) (d : Option Str) :
    api_insights backend none d =
      some (noTxnsMsg ++ "\n\nAI Suggestions:\n".data ++
        generate_text backend (insights_prompt (insights_context d) (dumpsCats [])) 140) ∧
    api_insights backend (some []) d =
      some (noTxnsMsg ++ "\n\nAI Suggestions:\n".data ++
        generate_text backend (insights_prompt (insights_context d) (dumpsCats [])) 140) ∧
    ∀ out, api_insights backend none d = some out → noTxnsMsg <+: out := by
  refine ⟨rfl, rfl, ?_⟩
  intro out h
  have h2 : some (noTxnsMsg ++ "\n\nAI Suggestions:\n".data ++
      generate_text backend (insights_prompt (insights_context d) (dumpsCats [])) 140) =
      some out := h
  injection h2 with h3
  rw [← h3]
  exact (List.prefix_append noTxnsMsg "\n\nAI Suggestions:\n".data).trans
    (List.prefix_append _ _)

theorem claim_C10_witness :
    api_insights .unavailable none none =
      some (noTxnsMsg ++ "\n\nAI Suggestions:\n".data ++
        generate_text .unavailable (insights_prompt (insights_context none) (dumpsCats [])) 140) ∧
    noTxnsMsg <+: (noTxnsMsg ++ "\n\nAI Suggestions:\n".data ++
      generate_text .unavailable (insights_prompt (insights_context none) (dumpsCats [])) 140) :=
  ⟨(claim_C10 .unavailable none).1,
   (claim_C10 .unavailable none).2.2 _ (claim_C10 .unavailable none).1⟩

/-- Claim C1 is false as stated: a non-empty unparseable `amount` string is
not coerced to zero — `float("abc")` raises, and both `/api/budget` and
`/api/insights` propagate the error (the request is rejected). -/
theorem claim_C1_counterexample :
    coerceNum (some (.jstr "abc".data)) = none ∧
    api_budget .unavailable (some (.jnum 5000))
      (some [{ amount := some (.jstr "abc".data) }]) none = none ∧
    api_insights .unavailable
      (some [{ desc := some (.jstr "shoes".data), amount := some (.jstr "abc".data) }])
      none = none := by
  refine ⟨rfl, ?_, ?_⟩ <;> decide

/-- Claim C1 (amended): a transaction `amount` that is absent, `null`, or
falsy (empty string, `0`, `false`) is coerced to zero, and a numeric amount
passes through unchanged; but a non-empty unparseable string raises an
uncaught error instead of being coerced. -/
theorem claim_C1_amended :
    (∀ q : ℚ, coerceNum (some (.jnum q)) = some q) ∧
    coerceNum none = some 0 ∧
    coerceNum (some .jnull) = some 0 ∧
    coerceNum (some (.jstr [])) = some 0 ∧
    coerceNum (some (.jbool false)) = some 0 ∧
    coerceNum (some (.jnum 0)) = some 0 ∧
    coerceNum (some (.jstr "abc".data)) = none := by
  refine ⟨?_, rfl, rfl, rfl, rfl, rfl, rfl⟩
  intro q
  by_cases hq : q = 0
  · subst hq
    rfl
  · have hd : decide (q ≠ 0) = true := decide_eq_true hq
    simp [coerceNum, truthy, pyFloat, hd]

/-- Claim C2 is false as stated: on `/api/budget` (and `/api/insights`) a
present demographic key outside the profile map resolves to the empty
string, not to the default context sentence. -/
theorem claim_C2_counterexample :
    budget_context (some "foo".data) = [] ∧
    insights_context (some "foo".data) = [] ∧
    defaultContext ≠ [] ∧
    budget_context (some "foo".data) ≠ defaultContext := by
  refine ⟨?_, ?_, ?_, ?_⟩ <;> decide

/-- Claim C2 (amended): on `/api/chat` every demographic key outside the
profile map resolves to the default context, and on all three endpoints an
absent key resolves to the default context; but on `/api/budget` and
`/api/insights` a present key outside the map resolves to the empty string. -/
theorem claim_C2_amended (d : Str) (h : dictMem PROFILE_CONTEXTS d = false) :
    chat_context (some d) = defaultContext ∧
    chat_context none = defaultContext ∧
    budget_context none = defaultContext ∧
    insights_context none = defaultContext ∧
    budget_context (some d) = [] ∧
    insights_context (some d) = [] := by
  refine ⟨?_, by decide, by decide, by decide, ?_, ?_⟩
  · show dictGet PROFILE_CONTEXTS
      (if dictMem PROFILE_CONTEXTS d = true then d else "default".data) [] = defaultContext
    rw [h, if_neg Bool.false_ne_true]
    decide
  · exact dictGet_of_not_mem _ _ _ h
  · exact dictGet_of_not_mem _ _ _ h

theorem claim_C2_witness :
    dictMem PROFILE_CONTEXTS "foo".data = false ∧
    chat_context (some "foo".data) = defaultContext ∧
    budget_context (some "foo".data) = [] :=
  ⟨by decide, (claim_C2_amended "foo".data (by decide)).1,
   (claim_C2_amended "foo".data (by decide)).2.2.2.2.1⟩

/-- Claim C3 is false as stated: the stop-token loop does not make a single
cut at the first-checked marker that occurs.  On a continuation containing
`"Answer:"` before `"User:"`, a priority-order single cut would keep
`"abc Answer: def"`, but the code keeps only `"abc"` (it goes on to cut at
`"Answer:"` as well). -/
theorem claim_C3_counterexample :
    generate_text (.available fun _ _ => .ok "abc Answer: def User: ghi".data) [] 200 =
      "abc".data ∧
    specPriorityCut "abc Answer: def User: ghi".data = "abc Answer: def".data ∧
    ("abc".data : Str) ≠ "abc Answer: def".data := by
  refine ⟨?_, ?_, ?_⟩ <;> decide

/-- Claim C3 (amended): the loop applies every marker in the fixed order
`User:`, `Assistant:`, `Instruction:`, `Answer:`, cutting the current text at
each marker's first occurrence, so the cleaned remainder contains no marker
occurrence at all; in particular for a continuation with `"Answer:"` before
`"User:"` the kept text precedes the earliest marker. -/
theorem claim_C3_amended (s : Str) :
    (¬ "User:".data <:+: applyStops s) ∧ (¬ "Assistant:".data <:+: applyStops s) ∧
    (¬ "Instruction:".data <:+: applyStops s) ∧ (¬ "Answer:".data <:+: applyStops s) ∧
    applyStops "abc Answer: def User: ghi".data = "abc".data :=
  ⟨(applyStops_no_marker s).1, (applyStops_no_marker s).2.1,
   (applyStops_no_marker s).2.2.1, (applyStops_no_marker s).2.2.2, by decide⟩

/-- Claim C6 (confirmed): the categorizer buckets each transaction by the
first matching case-insensitive keyword rule in the fixed order Rent, Dining,
Grocery, Taxes, else Other; the reported top category is a maximal-sum
category with ties broken by first-seen order; and on the example
transactions (`Rent payment` 1000, `Cafe` 200) the endpoint reports
`Rent (₹1000.00)`. -/
theorem claim_C6 (cats : List (Str × ℚ)) (z : Str × ℚ) (h : pyMaxBySnd cats = some z) :
    (∃ l1 l2, cats = l1 ++ z :: l2 ∧ (∀ y ∈ cats, y.2 ≤ z.2) ∧ ∀ y ∈ l1, y.2 < z.2) ∧
    categorize "rent payment".data = "Rent".data ∧
    categorize "cafe".data = "Dining".data ∧
    categorize "home restaurant tax".data = "Rent".data ∧
    categorize "grocery run".data = "Grocery".data ∧
    categorize "income tax".data = "Taxes".data ∧
    categorize "lottery".data = "Other".data ∧
    getDesc (some (.jstr "Rent Payment".data)) = some "rent payment".data ∧
    buildCatsFrom []
      [{ desc := some (.jstr "Rent payment".data), amount := some (.jnum 1000) },
       { desc := some (.jstr "Cafe".data), amount := some (.jnum 200) }] =
      some [("Rent".data, 1000), ("Dining".data, 200)] ∧
    api_insights .unavailable
      (some [{ desc := some (.jstr "Rent payment".data), amount := some (.jnum 1000) },
             { desc := some (.jstr "Cafe".data), amount := some (.jnum 200) }]) none =
      some (("Top spending category: Rent (₹1000.00). Consider reducing it by 10%." ++
        "\n\nAI Suggestions:\n").data ++ fallbackMsg) :=
  ⟨pyMaxBySnd_spec cats z h, by decide, by decide, by decide, by decide, by decide,
   by decide, by decide, by decide, by decide⟩

theorem claim_C6_witness :
    pyMaxBySnd [("Rent".data, (1000 : ℚ)), ("Dining".data, (200 : ℚ))] =
      some ("Rent".data, (1000 : ℚ)) ∧
    ∃ l1 l2, [("Rent".data, (1000 : ℚ)), ("Dining".data, (200 : ℚ))] =
        l1 ++ ("Rent".data, (1000 : ℚ)) :: l2 ∧
      (∀ y ∈ [("Rent".data, (1000 : ℚ)), ("Dining".data, (200 : ℚ))],
        y.2 ≤ ("Rent".data, (1000 : ℚ)).2) ∧
      ∀ y ∈ l1, y.2 < ("Rent".data, (1000 : ℚ)).2 :=
  ⟨by decide,
   (claim_C6 [("Rent".data, 1000), ("Dining".data, 200)] ("Rent".data, 1000) (by decide)).1⟩

/-- Claim C7 (confirmed): in `/api/budget`, Total Spent is the sum of the
coerced transaction amounts and Estimated Savings is `incomeMonthly` minus
Total Spent, independent of the generated paragraph. -/
theorem claim_C7 (backend backend2 : Backend) (inc : Option JVal) (txns : List Txn)
    (d : Option Str) (income : ℚ) (qs : List ℚ)
    (hi : coerceNum inc = some income)
    (ht : txns.mapM (fun t => coerceNum t.amount) = some qs) :
    api_budget backend inc (some txns) d =
      some ⟨income, qs.sum, income - qs.sum,
        budget_block income qs.sum (income - qs.sum) ++ "\nAI Summary:\n".data ++
          generate_text backend
            (budget_prompt (budget_context d) (dumpsTxns txns) income) 180⟩ ∧
    (api_budget backend inc (some txns) d).map (fun r => (r.income, r.totalSpent, r.savings)) =
      (api_budget backend2 inc (some txns) d).map
        (fun r => (r.income, r.totalSpent, r.savings)) := by
  have hsum : sumAmounts txns = some qs.sum := by
    have h0 := sumAmountsFrom_eq txns 0 qs ht
    rw [zero_add] at h0
    exact h0
  have happ : ∀ b : Backend, api_budget b inc (some txns) d =
      some ⟨income, qs.sum, income - qs.sum,
        budget_block income qs.sum (income - qs.sum) ++ "\nAI Summary:\n".data ++
          generate_text b (budget_prompt (budget_context d) (dumpsTxns txns) income) 180⟩ := by
    intro b
    unfold api_budget
    rw [hi]
    simp only [Option.getD_some, Option.bind_eq_bind, Option.some_bind]
    rw [hsum]
    simp only [Option.some_bind]
  exact ⟨happ backend, by rw [happ backend, happ backend2]; rfl⟩

theorem claim_C7_witness :
    (api_budget .unavailable (some (.jnum 5000))
        (some [{ amount := some (.jnum 2000) }]) none).map
      (fun r => (r.income, r.totalSpent, r.savings)) =
      some ((5000 : ℚ), (2000 : ℚ), (3000 : ℚ)) ∧
    budget_block 5000 2000 3000 =
      "Monthly Income: ₹5000.0\nTotal Spent: ₹2000.0\nEstimated Savings: ₹3000.0\n".data := by
  constructor
  · have h := (claim_C7 .unavailable .unavailable (some (.jnum 5000))
      [{ desc := none, amount := some (.jnum 2000) }] none 5000 [2000] rfl rfl).1
    rw [h]
    simp only [Option.map_some']
    norm_num
  · decide
